import Mathlib

/-!
A shallow embedding of the "pausa caffè" scheduling service (`main.py`).

The service stores four record kinds (groups, users, bars, availabilities)
in a relational store; each HTTP handler opens a session, runs a few
queries, and returns an HTML page or a redirect.  We model the store as a
`DB` structure holding the four tables as lists (in insertion order, which
is the order SQLAlchemy returns rows absent an ORDER BY) together with the
next auto-increment primary key of each table.  Each handler becomes a pure
function from the request fields and the current `DB` to a `Resp` and the
new `DB`.

Password hashing (passlib/bcrypt) is an external collaborator: the
handlers that use it are parameterised over the `hash` and `verify`
functions.  The current date (`date.today()`) is a parameter of
`group_page`.  Python's `datetime.strptime` with the fixed formats
`"%H:%M"` and `"%Y-%m-%d"` is modelled by executable parsers below; a
parse failure is the source's uncaught exception, modelled as
`Resp.fatalError` with the store left unchanged (no commit happened).
-/

namespace Caffe

/-- A calendar date as parsed from a `"%Y-%m-%d"` literal. -/
structure PDate where
  year : Nat
  month : Nat
  day : Nat
deriving Repr, DecidableEq

/-- A clock time as parsed from a `"%H:%M"` literal. -/
structure PTime where
  hour : Nat
  minute : Nat
deriving Repr, DecidableEq

/-- Row of the `groups` table (`class Group`). -/
structure Group where
  id : Nat
  name : String
  premium : Bool
deriving Repr, DecidableEq

/-- Row of the `users` table (`class User`). -/
structure User where
  id : Nat
  nickname : String
  hashed_password : String
  group_id : Nat
deriving Repr, DecidableEq

/-- Row of the `bars` table (`class Bar`), the venues. -/
structure Bar where
  id : Nat
  name : String
  group_id : Nat
deriving Repr, DecidableEq

/-- Row of the `availabilities` table (`class Availability`). -/
structure Availability where
  id : Nat
  user_id : Nat
  bar_id : Nat
  start_time : PTime
  end_time : PTime
  date : PDate
deriving Repr, DecidableEq

/-- The relational store: the four tables plus each table's next
auto-increment primary key. -/
structure DB where
  groups : List Group
  users : List User
  bars : List Bar
  availabilities : List Availability
  nextGroupId : Nat
  nextUserId : Nat
  nextBarId : Nat
  nextAvailId : Nat
deriving Repr, DecidableEq

/-- Handler responses: an HTML body with a status code, a 303 redirect,
a redirect that also sets the `nickname` cookie, or the uncaught-exception
path (malformed date/time literal, dangling foreign key). -/
inductive Resp where
  | html (body : String) (status : Nat)
  | redirect (url : String) (status : Nat)
  | redirectCookie (url : String) (status : Nat) (cookieName : String) (cookieVal : String)
  | fatalError
deriving Repr, DecidableEq

/-! ### Parsing of the fixed `strptime` formats -/

/-- Split a character list at every occurrence of `c`
(like Python's `str.split` on a one-character separator). -/
def splitOnChar (c : Char) : List Char → List (List Char)
  | [] => [[]]
  | x :: xs =>
    match splitOnChar c xs with
    | [] => if x = c then [[], []] else [[x]]
    | y :: ys => if x = c then [] :: y :: ys else (x :: y) :: ys

/-- Whether `c` is an ASCII decimal digit. -/
def isDigitC (c : Char) : Bool :=
  decide (48 ≤ c.toNat ∧ c.toNat ≤ 57)

/-- Numeric value of a digit list, most significant first. -/
def digitsToNat (l : List Char) : Nat :=
  l.foldl (fun acc c => acc * 10 + (c.toNat - 48)) 0

/-- One numeric field of a `strptime` format directive: between `minLen`
and `maxLen` digits whose value lies in `[lo, hi]` (the directive's
matched widths and range, plus the range check done by the `time`/`date`
constructor). -/
def parseField (l : List Char) (lo hi minLen maxLen : Nat) : Option Nat :=
  if minLen ≤ l.length ∧ l.length ≤ maxLen ∧ l.all isDigitC then
    let n := digitsToNat l
    if lo ≤ n ∧ n ≤ hi then some n else none
  else none

/-- The `%d` directive, `3[01]|[12]\d|0[1-9]|[1-9]| [1-9]`: one or two
digits valued `1..31`, or a space-padded single digit `1..9`. -/
def parseDay (l : List Char) : Option Nat :=
  match l with
  | [' ', c] =>
    if isDigitC c ∧ c ≠ '0' then some (c.toNat - 48) else none
  | _ => parseField l 1 31 1 2

/-- `datetime.strptime(s, "%H:%M").time()`: two colon-separated fields,
`%H` one or two digits valued `0..23`, `%M` likewise valued `0..59`;
`none` is the raised `ValueError`. -/
def parseHM (s : String) : Option PTime :=
  match splitOnChar ':' s.data with
  | [hs, ms] =>
    match parseField hs 0 23 1 2, parseField ms 0 59 1 2 with
    | some h, some m => some ⟨h, m⟩
    | _, _ => none
  | _ => none

/-- How many days the given month has (Python's `datetime.date` validates
the day field against this). -/
def daysInMonth (y m : Nat) : Nat :=
  if m = 2 then
    if (y % 4 = 0 ∧ ¬ y % 100 = 0) ∨ y % 400 = 0 then 29 else 28
  else if m = 4 ∨ m = 6 ∨ m = 9 ∨ m = 11 then 30 else 31

/-- `datetime.strptime(s, "%Y-%m-%d").date()`: three dash-separated
fields — `%Y` exactly four digits (year `1..9999`, the `date`
constructor rejecting year 0), `%m` one or two digits valued `1..12`,
`%d` as `parseDay` with the day valid for that month; `none` is the
raised `ValueError`. -/
def parseYMD (s : String) : Option PDate :=
  match splitOnChar '-' s.data with
  | [ys, ms, ds] =>
    match parseField ys 1 9999 4 4, parseField ms 1 12 1 2, parseDay ds with
    | some y, some m, some d =>
      if d ≤ daysInMonth y m then some ⟨y, m, d⟩ else none
    | _, _, _ => none
  | _ => none

/-! ### Queries shared by several handlers -/

/-- `session.query(Group).filter_by(name=group_name).first()`. -/
def findGroup (db : DB) (group_name : String) : Option Group :=
  db.groups.find? (fun g => decide (g.name = group_name))

/-- `session.query(User).filter_by(nickname=nickname, group_id=gid).first()`. -/
def findUserInGroup (db : DB) (nickname : String) (gid : Nat) : Option User :=
  db.users.find? (fun u => decide (u.nickname = nickname ∧ u.group_id = gid))

/-- `session.query(Availability).filter_by(id=avail_id).first()`. -/
def findAvailById (db : DB) (avail_id : Nat) : Option Availability :=
  db.availabilities.find? (fun a => decide (a.id = avail_id))

/-- Resolution of the `Availability.user` relationship (join on `user_id`). -/
def findUserById (db : DB) (uid : Nat) : Option User :=
  db.users.find? (fun u => decide (u.id = uid))

/-- `session.delete(availability)`: remove the row `find?` returned, i.e.
the first row carrying this primary key. -/
def eraseFirstById (l : List Availability) (i : Nat) : List Availability :=
  match l with
  | [] => []
  | a :: rest => if a.id = i then rest else a :: eraseFirstById rest i

/-! ### The handlers -/

/-- `POST /crea-gruppo` (`crea_gruppo`): Conflict if a group with the name
exists, else insert the `Group` and its three `Bar` children and redirect
to the new group's page. -/
def crea_gruppo (db : DB) (nome_gruppo bar1 bar2 bar3 : String) : Resp × DB :=
  match findGroup db nome_gruppo with
  | some _ => (.html "Questo gruppo esiste già." 400, db)
  | none =>
    let gid := db.nextGroupId
    let group : Group := ⟨gid, nome_gruppo, false⟩
    let b1 : Bar := ⟨db.nextBarId, bar1, gid⟩
    let b2 : Bar := ⟨db.nextBarId + 1, bar2, gid⟩
    let b3 : Bar := ⟨db.nextBarId + 2, bar3, gid⟩
    (.redirect ("/" ++ nome_gruppo) 303,
     { db with
        groups := db.groups ++ [group]
        bars := db.bars ++ [b1, b2, b3]
        nextGroupId := gid + 1
        nextBarId := db.nextBarId + 3 })

/-- `POST /register` (`register`): NotFound if the group is missing,
Conflict if the nickname already exists in that group, else insert the
`User` with the hashed password, set the `nickname` cookie and redirect. -/
def register (hash : String → String) (db : DB)
    (nickname password group_name : String) : Resp × DB :=
  match findGroup db group_name with
  | none => (.html "Gruppo non trovato." 404, db)
  | some group =>
    match findUserInGroup db nickname group.id with
    | some _ => (.html "Nickname già registrato." 400, db)
    | none =>
      let user : User := ⟨db.nextUserId, nickname, hash password, group.id⟩
      (.redirectCookie ("/" ++ group.name) 303 "nickname" nickname,
       { db with
          users := db.users ++ [user]
          nextUserId := db.nextUserId + 1 })

/-- `POST /login` (`login`): NotFound if the group is missing,
Unauthorized if the user is missing or the password does not verify, else
set the `nickname` cookie and redirect.  Reads only. -/
def login (verify : String → String → Bool) (db : DB)
    (nickname password group_name : String) : Resp × DB :=
  match findGroup db group_name with
  | none => (.html "Gruppo non trovato." 404, db)
  | some group =>
    match findUserInGroup db nickname group.id with
    | none => (.html "Credenziali non valide." 401, db)
    | some user =>
      if verify password user.hashed_password then
        (.redirectCookie ("/" ++ group.name) 303 "nickname" nickname, db)
      else
        (.html "Credenziali non valide." 401, db)

/-- What `GET /{group_name}` renders: 404, or the template context
`{group, bars, availabilities, nickname, date}`. -/
inductive GroupPageResult where
  | notFound
  | page (group : String) (bars : List Bar) (availabilities : List Availability)
      (nickname : Option String) (date : PDate)
deriving Repr, DecidableEq

/-- `GET /{group_name}` (`group_page`): 404 if the group is missing, else
render the group's bars and the availabilities of today whose bar belongs
to this group (`Availability.date == today` and
`Availability.bar.has(group_id=group.id)`). -/
def group_page (db : DB) (today : PDate) (group_name : String)
    (nickname : Option String) : GroupPageResult :=
  match findGroup db group_name with
  | none => .notFound
  | some group =>
    let bars := db.bars.filter (fun b => decide (b.group_id = group.id))
    let availabilities := db.availabilities.filter (fun a =>
      decide (a.date = today) &&
      db.bars.any (fun b => decide (b.id = a.bar_id ∧ b.group_id = group.id)))
    .page group.name bars availabilities nickname today

/-- `POST /{group_name}/submit` (`submit_availability`): 404 if the group
is missing; redirect to `/login` if the cookie names no user of this group
(`filter_by(nickname=None)` matches nothing when the cookie is absent);
else parse the three literals, insert the `Availability` row and redirect
back to the group page.  A malformed literal raises before the insert. -/
def submit_availability (db : DB) (group_name : String) (bar_id : Nat)
    (start_time end_time date_str : String) (nickname : Option String) : Resp × DB :=
  match findGroup db group_name with
  | none => (.html "Gruppo non trovato" 404, db)
  | some group =>
    match (match nickname with
           | none => none
           | some nick => findUserInGroup db nick group.id) with
    | none => (.redirect "/login" 303, db)
    | some user =>
      match parseHM start_time, parseHM end_time, parseYMD date_str with
      | some st, some et, some d =>
        let row : Availability := ⟨db.nextAvailId, user.id, bar_id, st, et, d⟩
        (.redirect ("/" ++ group_name) 303,
         { db with
            availabilities := db.availabilities ++ [row]
            nextAvailId := db.nextAvailId + 1 })
      | _, _, _ => (.fatalError, db)

/-- `POST /{group_name}/delete` (`delete_availability`): look the row up
by id; if present and its owner's nickname equals the cookie, delete it;
in every case redirect back to `/{group_name}`.  `availability.user` on a
dangling `user_id` would raise (`fatalError`). -/
def delete_availability (db : DB) (group_name : String) (avail_id : Nat)
    (nickname : Option String) : Resp × DB :=
  match findAvailById db avail_id with
  | none => (.redirect ("/" ++ group_name) 303, db)
  | some a =>
    match findUserById db a.user_id with
    | none => (.fatalError, db)
    | some u =>
      if some u.nickname = nickname then
        (.redirect ("/" ++ group_name) 303,
         { db with availabilities := eraseFirstById db.availabilities avail_id })
      else
        (.redirect ("/" ++ group_name) 303, db)

/-! ### Basic query lemmas -/

/-- `findGroup` misses exactly when no stored group carries the name. -/
theorem findGroup_eq_none_iff (db : DB) (n : String) :
    findGroup db n = none ↔ ∀ g ∈ db.groups, g.name ≠ n := by
  simp [findGroup, List.find?_eq_none]

/-- `findUserInGroup` misses exactly when no stored user carries the
nickname inside that group. -/
theorem findUserInGroup_eq_none_iff (db : DB) (n : String) (gid : Nat) :
    findUserInGroup db n gid = none ↔
      ∀ u ∈ db.users, ¬(u.nickname = n ∧ u.group_id = gid) := by
  simp [findUserInGroup, List.find?_eq_none]

/-- If some stored group carries the name, `findGroup` returns one that
does. -/
theorem findGroup_isSome (db : DB) (n : String) (g : Group)
    (hg : g ∈ db.groups) (hn : g.name = n) :
    ∃ g', findGroup db n = some g' ∧ g'.name = n := by
  rcases hfind : findGroup db n with _ | g'
  · exact absurd hn ((findGroup_eq_none_iff db n).1 hfind g hg)
  · refine ⟨g', rfl, ?_⟩
    have := List.find?_some hfind
    simpa using this

/-- Rows surviving `eraseFirstById` were stored before. -/
theorem mem_eraseFirstById (l : List Availability) (i : Nat) (x : Availability)
    (hx : x ∈ eraseFirstById l i) : x ∈ l := by
  induction l with
  | nil => simp [eraseFirstById] at hx
  | cons a rest ih =>
    by_cases h : a.id = i
    · simp only [eraseFirstById, if_pos h] at hx
      exact List.mem_cons_of_mem a hx
    · simp only [eraseFirstById, if_neg h, List.mem_cons] at hx
      rcases hx with rfl | hx
      · exact List.mem_cons_self x rest
      · exact List.mem_cons_of_mem a (ih hx)

/-- `eraseFirstById` removes exactly the row `find?` located: the store
decomposes around that row and only it disappears. -/
theorem eraseFirstById_decomp (l : List Availability) (i : Nat) (a : Availability)
    (hfind : l.find? (fun x => decide (x.id = i)) = some a) :
    ∃ l1 l2, l = l1 ++ a :: l2 ∧ (∀ x ∈ l1, x.id ≠ i) ∧
      eraseFirstById l i = l1 ++ l2 := by
  induction l with
  | nil => simp at hfind
  | cons b rest ih =>
    by_cases hb : b.id = i
    · rw [List.find?_cons_of_pos rest (by simpa using hb)] at hfind
      obtain rfl : b = a := by simpa using hfind
      exact ⟨[], rest, by simp, by simp, by simp [eraseFirstById, hb]⟩
    · rw [List.find?_cons_of_neg rest (by simpa using hb)] at hfind
      obtain ⟨l1, l2, hdec, hne, herase⟩ := ih hfind
      exact ⟨b :: l1, l2, by simp [hdec], by simpa [hb] using hne,
        by simp [eraseFirstById, hb, herase]⟩

/-! ### One lemma per handler branch -/

/-- `crea_gruppo` on an existing name: Conflict, store untouched. -/
theorem crea_gruppo_found (db : DB) (n v1 v2 v3 : String) (g : Group)
    (h : findGroup db n = some g) :
    crea_gruppo db n v1 v2 v3 = (.html "Questo gruppo esiste già." 400, db) := by
  unfold crea_gruppo
  rw [h]

/-- `crea_gruppo` on a fresh name: insert the group and its three bars. -/
theorem crea_gruppo_fresh (db : DB) (n v1 v2 v3 : String)
    (h : findGroup db n = none) :
    crea_gruppo db n v1 v2 v3 =
      (.redirect ("/" ++ n) 303,
       { db with
          groups := db.groups ++ [⟨db.nextGroupId, n, false⟩]
          bars := db.bars ++
            [⟨db.nextBarId, v1, db.nextGroupId⟩,
             ⟨db.nextBarId + 1, v2, db.nextGroupId⟩,
             ⟨db.nextBarId + 2, v3, db.nextGroupId⟩]
          nextGroupId := db.nextGroupId + 1
          nextBarId := db.nextBarId + 3 }) := by
  unfold crea_gruppo
  rw [h]

/-- `register` on a missing group: NotFound, store untouched. -/
theorem register_no_group (hash : String → String) (db : DB) (n p gname : String)
    (h : findGroup db gname = none) :
    register hash db n p gname = (.html "Gruppo non trovato." 404, db) := by
  unfold register
  rw [h]

/-- `register` on a taken nickname: Conflict, store untouched. -/
theorem register_conflict (hash : String → String) (db : DB) (n p gname : String)
    (g : Group) (u : User) (hg : findGroup db gname = some g)
    (hu : findUserInGroup db n g.id = some u) :
    register hash db n p gname = (.html "Nickname già registrato." 400, db) := by
  simp only [register, hg, hu]

/-- `register` success: insert the user, set the cookie, redirect. -/
theorem register_ok (hash : String → String) (db : DB) (n p gname : String)
    (g : Group) (hg : findGroup db gname = some g)
    (hu : findUserInGroup db n g.id = none) :
    register hash db n p gname =
      (.redirectCookie ("/" ++ g.name) 303 "nickname" n,
       { db with
          users := db.users ++ [⟨db.nextUserId, n, hash p, g.id⟩]
          nextUserId := db.nextUserId + 1 }) := by
  simp only [register, hg, hu]

/-- `login` on a missing group: NotFound. -/
theorem login_no_group (verify : String → String → Bool) (db : DB) (n p gname : String)
    (h : findGroup db gname = none) :
    login verify db n p gname = (.html "Gruppo non trovato." 404, db) := by
  unfold login
  rw [h]

/-- `login` on a missing user: Unauthorized, no cookie. -/
theorem login_no_user (verify : String → String → Bool) (db : DB) (n p gname : String)
    (g : Group) (hg : findGroup db gname = some g)
    (hu : findUserInGroup db n g.id = none) :
    login verify db n p gname = (.html "Credenziali non valide." 401, db) := by
  simp only [login, hg, hu]

/-- `login` with a password that does not verify: Unauthorized, no cookie. -/
theorem login_badpw (verify : String → String → Bool) (db : DB) (n p gname : String)
    (g : Group) (u : User) (hg : findGroup db gname = some g)
    (hu : findUserInGroup db n g.id = some u)
    (hv : verify p u.hashed_password = false) :
    login verify db n p gname = (.html "Credenziali non valide." 401, db) := by
  simp only [login, hg, hu, hv]
  simp

/-- `login` success: set the cookie, redirect, store untouched. -/
theorem login_ok (verify : String → String → Bool) (db : DB) (n p gname : String)
    (g : Group) (u : User) (hg : findGroup db gname = some g)
    (hu : findUserInGroup db n g.id = some u)
    (hv : verify p u.hashed_password = true) :
    login verify db n p gname =
      (.redirectCookie ("/" ++ g.name) 303 "nickname" n, db) := by
  simp only [login, hg, hu, hv]
  simp

/-- `group_page` on a missing group: 404. -/
theorem group_page_no_group (db : DB) (today : PDate) (gname : String)
    (nick : Option String) (h : findGroup db gname = none) :
    group_page db today gname nick = .notFound := by
  unfold group_page
  rw [h]

/-- `group_page` on an existing group: render its bars and today's
availabilities whose bar belongs to it. -/
theorem group_page_found (db : DB) (today : PDate) (gname : String)
    (nick : Option String) (g : Group) (h : findGroup db gname = some g) :
    group_page db today gname nick =
      .page g.name
        (db.bars.filter (fun b => decide (b.group_id = g.id)))
        (db.availabilities.filter (fun a =>
          decide (a.date = today) &&
          db.bars.any (fun b => decide (b.id = a.bar_id ∧ b.group_id = g.id))))
        nick today := by
  unfold group_page
  rw [h]

/-- `submit_availability` on a missing group: 404, store untouched. -/
theorem submit_no_group (db : DB) (gname : String) (bid : Nat)
    (st et ds : String) (nick : Option String)
    (h : findGroup db gname = none) :
    submit_availability db gname bid st et ds nick =
      (.html "Gruppo non trovato" 404, db) := by
  unfold submit_availability
  rw [h]

/-- `submit_availability` with no cookie: redirect to the login page,
store untouched. -/
theorem submit_no_cookie (db : DB) (gname : String) (bid : Nat)
    (st et ds : String) (g : Group) (hg : findGroup db gname = some g) :
    submit_availability db gname bid st et ds none =
      (.redirect "/login" 303, db) := by
  unfold submit_availability
  rw [hg]

/-- `submit_availability` with a cookie naming no user of the group:
redirect to the login page, store untouched. -/
theorem submit_no_user (db : DB) (gname : String) (bid : Nat)
    (st et ds : String) (n : String) (g : Group)
    (hg : findGroup db gname = some g)
    (hu : findUserInGroup db n g.id = none) :
    submit_availability db gname bid st et ds (some n) =
      (.redirect "/login" 303, db) := by
  simp only [submit_availability, hg, hu]

/-- `submit_availability` success: insert the row built from the parsed
literals and redirect back to the group page. -/
theorem submit_ok (db : DB) (gname : String) (bid : Nat)
    (st et ds : String) (n : String) (g : Group) (u : User)
    (t1 t2 : PTime) (d : PDate)
    (hg : findGroup db gname = some g)
    (hu : findUserInGroup db n g.id = some u)
    (hst : parseHM st = some t1) (het : parseHM et = some t2)
    (hd : parseYMD ds = some d) :
    submit_availability db gname bid st et ds (some n) =
      (.redirect ("/" ++ gname) 303,
       { db with
          availabilities := db.availabilities ++
            [⟨db.nextAvailId, u.id, bid, t1, t2, d⟩]
          nextAvailId := db.nextAvailId + 1 }) := by
  simp only [submit_availability, hg, hu, hst, het, hd]

/-- `delete_availability` with no row of that id: redirect, untouched. -/
theorem delete_no_row (db : DB) (gname : String) (aid : Nat) (nick : Option String)
    (h : findAvailById db aid = none) :
    delete_availability db gname aid nick = (.redirect ("/" ++ gname) 303, db) := by
  unfold delete_availability
  rw [h]

/-- `delete_availability` when the owner's nickname equals the cookie:
delete the row and redirect. -/
theorem delete_owner (db : DB) (gname : String) (aid : Nat)
    (a : Availability) (u : User)
    (ha : findAvailById db aid = some a)
    (hu : findUserById db a.user_id = some u) :
    delete_availability db gname aid (some u.nickname) =
      (.redirect ("/" ++ gname) 303,
       { db with availabilities := eraseFirstById db.availabilities aid }) := by
  simp only [delete_availability, ha, hu]
  simp

/-- `delete_availability` when the cookie differs from the owner's
nickname: redirect, store untouched. -/
theorem delete_not_owner (db : DB) (gname : String) (aid : Nat)
    (nick : Option String) (a : Availability) (u : User)
    (ha : findAvailById db aid = some a)
    (hu : findUserById db a.user_id = some u)
    (hne : nick ≠ some u.nickname) :
    delete_availability db gname aid nick = (.redirect ("/" ++ gname) 303, db) := by
  simp only [delete_availability, ha, hu]
  simp [Ne.symm hne]

/-- `delete_availability` on a row whose `user_id` resolves to no stored
user: `availability.user` is `None` and the handler raises. -/
theorem delete_dangling (db : DB) (gname : String) (aid : Nat)
    (nick : Option String) (a : Availability)
    (ha : findAvailById db aid = some a)
    (hu : findUserById db a.user_id = none) :
    delete_availability db gname aid nick = (.fatalError, db) := by
  simp only [delete_availability, ha, hu]

/-- If some stored user carries the nickname in the group,
`findUserInGroup` hits. -/
theorem findUserInGroup_isSome (db : DB) (n : String) (gid : Nat) (u : User)
    (hu : u ∈ db.users) (hn : u.nickname = n) (hg : u.group_id = gid) :
    ∃ u', findUserInGroup db n gid = some u' := by
  rcases h : findUserInGroup db n gid with _ | u'
  · exact absurd ⟨hn, hg⟩ ((findUserInGroup_eq_none_iff db n gid).1 h u hu)
  · exact ⟨u', rfl⟩

/-- If some stored user carries the id, `findUserById` hits. -/
theorem findUserById_isSome (db : DB) (uid : Nat) (u : User)
    (hu : u ∈ db.users) (hi : u.id = uid) :
    ∃ u', findUserById db uid = some u' := by
  rcases h : findUserById db uid with _ | u'
  · rw [findUserById, List.find?_eq_none] at h
    exact absurd (by simpa using hi) (h u hu)
  · exact ⟨u', rfl⟩

/-- `findAvailById` misses exactly when no stored row carries the id. -/
theorem findAvailById_eq_none_iff (db : DB) (aid : Nat) :
    findAvailById db aid = none ↔ ∀ a ∈ db.availabilities, a.id ≠ aid := by
  simp [findAvailById, List.find?_eq_none]

/-- Whatever the inputs, `delete_availability` never touches the users
table and only ever removes availability rows. -/
theorem delete_state_shrinks (db : DB) (gname : String) (aid : Nat)
    (nick : Option String) :
    (delete_availability db gname aid nick).2.users = db.users ∧
    ∀ x ∈ (delete_availability db gname aid nick).2.availabilities,
      x ∈ db.availabilities := by
  rcases ha : findAvailById db aid with _ | a
  · rw [delete_no_row db gname aid nick ha]
    exact ⟨rfl, fun x hx => hx⟩
  · rcases hu : findUserById db a.user_id with _ | u
    · rw [delete_dangling db gname aid nick a ha hu]
      exact ⟨rfl, fun x hx => hx⟩
    · by_cases hnick : nick = some u.nickname
      · rw [hnick, delete_owner db gname aid a u ha hu]
        exact ⟨rfl, fun x hx => mem_eraseFirstById db.availabilities aid x hx⟩
      · rw [delete_not_owner db gname aid nick a u ha hu hnick]
        exact ⟨rfl, fun x hx => hx⟩

/-- As long as every availability row's `user_id` resolves,
`delete_availability` answers with the redirect to the group page. -/
theorem delete_always_redirects (db : DB) (gname : String) (aid : Nat)
    (nick : Option String)
    (hdang : ∀ a ∈ db.availabilities, ∃ u ∈ db.users, u.id = a.user_id) :
    (delete_availability db gname aid nick).1 = .redirect ("/" ++ gname) 303 := by
  rcases ha : findAvailById db aid with _ | a
  · rw [delete_no_row db gname aid nick ha]
  · have hmem : a ∈ db.availabilities := by
      have := List.mem_of_find?_eq_some ha
      simpa [findAvailById] using this
    obtain ⟨u0, hu0, hid⟩ := hdang a hmem
    obtain ⟨u, hu⟩ := findUserById_isSome db a.user_id u0 hu0 hid
    by_cases hnick : nick = some u.nickname
    · rw [hnick, delete_owner db gname aid a u ha hu]
    · rw [delete_not_owner db gname aid nick a u ha hu hnick]

/-! ### Claim theorems -/

/-- C1: `group_page` answers NotFound exactly when no stored group carries
the requested name; otherwise it renders the group's bars together with
exactly the availability rows dated today whose bar belongs to this group
(the venue-group scoping the code implements), and — when bar ids are
unique, as primary keys are — never a row whose bar belongs to another
group. -/
theorem claim_C1 (db : DB) (today : PDate) (name : String) (nick : Option String)
    (hbar : (db.bars.map Bar.id).Nodup) :
    (group_page db today name nick = .notFound ↔ ∀ g ∈ db.groups, g.name ≠ name) ∧
    (∀ g, findGroup db name = some g →
      ∃ bars avails, group_page db today name nick = .page g.name bars avails nick today ∧
        (∀ b, b ∈ bars ↔ b ∈ db.bars ∧ b.group_id = g.id) ∧
        (∀ a, a ∈ avails ↔ a ∈ db.availabilities ∧ a.date = today ∧
          ∃ b ∈ db.bars, b.id = a.bar_id ∧ b.group_id = g.id) ∧
        (∀ a ∈ avails, ∀ b ∈ db.bars, b.id = a.bar_id → b.group_id = g.id)) := by
  constructor
  · rcases hfind : findGroup db name with _ | g
    · rw [group_page_no_group db today name nick hfind]
      simpa using (findGroup_eq_none_iff db name).1 hfind
    · rw [group_page_found db today name nick g hfind]
      have hg : g ∈ db.groups := by
        have := List.mem_of_find?_eq_some hfind
        simpa [findGroup] using this
      have hn : g.name = name := by
        have := List.find?_some hfind
        simpa using this
      simp only [reduceCtorEq, false_iff, not_forall]
      exact ⟨g, hg, by simp [hn]⟩
  · intro g hfind
    refine ⟨_, _, group_page_found db today name nick g hfind, ?_, ?_, ?_⟩
    · intro b
      simp [List.mem_filter]
    · intro a
      simp [List.mem_filter, List.any_eq_true, and_assoc]
    · intro a ha b hb hid
      have hmem : a.date = today ∧ ∃ b0 ∈ db.bars, b0.id = a.bar_id ∧ b0.group_id = g.id := by
        have := (List.mem_filter.1 ha).2
        simpa [List.any_eq_true, and_assoc] using this
      obtain ⟨-, b0, hb0, hb0id, hb0g⟩ := hmem
      have : b = b0 :=
        List.inj_on_of_nodup_map hbar hb hb0 (by rw [hid, hb0id])
      rw [this]
      exact hb0g

/-- C2: `crea_gruppo` answers Conflict and leaves the store untouched when
a group of the submitted name already exists; on a fresh name it inserts
the group and exactly three child bars and redirects to the new group's
page, so that a second creation under the same name is refused, changes
nothing, and leaves exactly one group of that name. -/
theorem claim_C2 :
    (∀ db n v1 v2 v3 g, g ∈ db.groups → g.name = n →
      crea_gruppo db n v1 v2 v3 = (.html "Questo gruppo esiste già." 400, db)) ∧
    (∀ db n v1 v2 v3, (∀ g ∈ db.groups, g.name ≠ n) →
      crea_gruppo db n v1 v2 v3 =
        (.redirect ("/" ++ n) 303,
         { db with
            groups := db.groups ++ [⟨db.nextGroupId, n, false⟩]
            bars := db.bars ++
              [⟨db.nextBarId, v1, db.nextGroupId⟩,
               ⟨db.nextBarId + 1, v2, db.nextGroupId⟩,
               ⟨db.nextBarId + 2, v3, db.nextGroupId⟩]
            nextGroupId := db.nextGroupId + 1
            nextBarId := db.nextBarId + 3 }) ∧
      (∀ v1' v2' v3',
        crea_gruppo (crea_gruppo db n v1 v2 v3).2 n v1' v2' v3' =
          (.html "Questo gruppo esiste già." 400, (crea_gruppo db n v1 v2 v3).2)) ∧
      ((crea_gruppo db n v1 v2 v3).2.groups.filter
          (fun g => decide (g.name = n))).length = 1) := by
  constructor
  · intro db n v1 v2 v3 g hg hn
    obtain ⟨g', hfind, -⟩ := findGroup_isSome db n g hg hn
    exact crea_gruppo_found db n v1 v2 v3 g' hfind
  · intro db n v1 v2 v3 hnone
    have hfind : findGroup db n = none := (findGroup_eq_none_iff db n).2 hnone
    have hrun := crea_gruppo_fresh db n v1 v2 v3 hfind
    refine ⟨hrun, ?_, ?_⟩
    · intro v1' v2' v3'
      have hfind1 : findGroup (crea_gruppo db n v1 v2 v3).2 n =
          some ⟨db.nextGroupId, n, false⟩ := by
        rw [hrun]
        simp only [findGroup] at hfind ⊢
        simp [List.find?_append, hfind]
      exact crea_gruppo_found _ n v1' v2' v3' _ hfind1
    · rw [hrun]
      have hfilter : db.groups.filter (fun g => decide (g.name = n)) = [] := by
        simp only [List.filter_eq_nil_iff, decide_eq_true_eq]
        exact hnone
      simp [List.filter_append, hfilter]

/-- C3: a successful group creation adds exactly three bar rows, all owned
by the new group, and they are the only bars of that group, named
`v1, v2, v3` in submission order. -/
theorem claim_C3 (db : DB) (n v1 v2 v3 : String)
    (hnone : ∀ g ∈ db.groups, g.name ≠ n)
    (hfresh : ∀ b ∈ db.bars, b.group_id < db.nextGroupId) :
    (crea_gruppo db n v1 v2 v3).2.bars =
      db.bars ++
        [⟨db.nextBarId, v1, db.nextGroupId⟩,
         ⟨db.nextBarId + 1, v2, db.nextGroupId⟩,
         ⟨db.nextBarId + 2, v3, db.nextGroupId⟩] ∧
    ∃ g, findGroup (crea_gruppo db n v1 v2 v3).2 n = some g ∧ g.name = n ∧
      ((crea_gruppo db n v1 v2 v3).2.bars.filter
          (fun b => decide (b.group_id = g.id))).map Bar.name = [v1, v2, v3] := by
  have hfind : findGroup db n = none := (findGroup_eq_none_iff db n).2 hnone
  have hrun := crea_gruppo_fresh db n v1 v2 v3 hfind
  refine ⟨by rw [hrun], ⟨db.nextGroupId, n, false⟩, ?_, rfl, ?_⟩
  · rw [hrun]
    simp only [findGroup] at hfind ⊢
    simp [List.find?_append, hfind]
  · rw [hrun]
    have hold : db.bars.filter (fun b => decide (b.group_id = db.nextGroupId)) = [] := by
      simp only [List.filter_eq_nil_iff, decide_eq_true_eq]
      intro b hb
      exact Nat.ne_of_lt (hfresh b hb)
    simp [List.filter_append, hold]

/-- C4: with well-formed time and date literals, `submit_availability`
answers NotFound when no group carries the name, redirects to the login
page leaving the store untouched when the cookie names no user of the
group, and otherwise appends exactly one availability row carrying the
parsed start, end and date for that user and the submitted venue id,
redirecting back to the group page. -/
theorem claim_C4 (db : DB) (gname : String) (bid : Nat) (st et ds : String)
    (nick : Option String) (t1 t2 : PTime) (d : PDate)
    (hst : parseHM st = some t1) (het : parseHM et = some t2)
    (hd : parseYMD ds = some d) :
    ((∀ g ∈ db.groups, g.name ≠ gname) →
      submit_availability db gname bid st et ds nick =
        (.html "Gruppo non trovato" 404, db)) ∧
    (∀ g, findGroup db gname = some g →
      ((∀ u ∈ db.users, ¬(some u.nickname = nick ∧ u.group_id = g.id)) →
        submit_availability db gname bid st et ds nick = (.redirect "/login" 303, db)) ∧
      (∀ n u, nick = some n → findUserInGroup db n g.id = some u →
        submit_availability db gname bid st et ds nick =
          (.redirect ("/" ++ gname) 303,
           { db with
              availabilities := db.availabilities ++
                [⟨db.nextAvailId, u.id, bid, t1, t2, d⟩]
              nextAvailId := db.nextAvailId + 1 }))) := by
  refine ⟨?_, ?_⟩
  · intro hnone
    exact submit_no_group db gname bid st et ds nick
      ((findGroup_eq_none_iff db gname).2 hnone)
  · intro g hg
    constructor
    · intro hnouser
      rcases nick with _ | n
      · exact submit_no_cookie db gname bid st et ds g hg
      · have hu : findUserInGroup db n g.id = none := by
          refine (findUserInGroup_eq_none_iff db n g.id).2 ?_
          intro u hu hcontra
          exact hnouser u hu ⟨by rw [hcontra.1], hcontra.2⟩
        exact submit_no_user db gname bid st et ds n g hg hu
    · intro n u hn hu
      rw [hn]
      exact submit_ok db gname bid st et ds n g u t1 t2 d hg hu hst het hd

/-- C5: `delete_availability` always answers with the redirect to the
group page (given no availability row has a dangling owner); it leaves
the store untouched when no row carries the id or the owner's nickname
differs from the cookie; when the cookie equals the owner's nickname it
removes exactly that row and nothing else; and a second deletion of the
same id is safe. -/
theorem claim_C5 (db : DB) (gname : String) (aid : Nat) (nick : Option String)
    (hdang : ∀ a ∈ db.availabilities, ∃ u ∈ db.users, u.id = a.user_id) :
    ((delete_availability db gname aid nick).1 = .redirect ("/" ++ gname) 303) ∧
    ((∀ a ∈ db.availabilities, a.id ≠ aid) →
      (delete_availability db gname aid nick).2 = db) ∧
    (∀ a, findAvailById db aid = some a →
      ∀ u, findUserById db a.user_id = some u →
        (nick ≠ some u.nickname → (delete_availability db gname aid nick).2 = db) ∧
        (nick = some u.nickname →
          ∃ l1 l2, db.availabilities = l1 ++ a :: l2 ∧ (∀ x ∈ l1, x.id ≠ aid) ∧
            (delete_availability db gname aid nick).2 =
              { db with availabilities := l1 ++ l2 })) ∧
    ((delete_availability (delete_availability db gname aid nick).2 gname aid nick).1 =
      .redirect ("/" ++ gname) 303) := by
  refine ⟨delete_always_redirects db gname aid nick hdang, ?_, ?_, ?_⟩
  · intro hnone
    rw [delete_no_row db gname aid nick ((findAvailById_eq_none_iff db aid).2 hnone)]
  · intro a ha u hu
    constructor
    · intro hne
      rw [delete_not_owner db gname aid nick a u ha hu hne]
    · intro heq
      obtain ⟨l1, l2, hdec, hne, herase⟩ :=
        eraseFirstById_decomp db.availabilities aid a (by simpa [findAvailById] using ha)
      refine ⟨l1, l2, hdec, hne, ?_⟩
      rw [heq, delete_owner db gname aid a u ha hu, herase]
  · obtain ⟨husers, hsub⟩ := delete_state_shrinks db gname aid nick
    refine delete_always_redirects _ gname aid nick ?_
    intro a ha
    obtain ⟨u, hu, hid⟩ := hdang a (hsub a ha)
    exact ⟨u, husers ▸ hu, hid⟩

/-- C6: `register` answers NotFound when the group is missing and Conflict
— creating no user — when the nickname is taken inside the group;
otherwise it appends exactly one user whose stored password is the hash of
the submitted one (never the plaintext, whenever hashing is not the
identity on it), sets the `nickname` cookie and redirects to the group
page. -/
theorem claim_C6 (hash : String → String) (db : DB) (n p gname : String) :
    ((∀ g ∈ db.groups, g.name ≠ gname) →
      register hash db n p gname = (.html "Gruppo non trovato." 404, db)) ∧
    (∀ g, findGroup db gname = some g →
      ((∃ u ∈ db.users, u.nickname = n ∧ u.group_id = g.id) →
        register hash db n p gname = (.html "Nickname già registrato." 400, db)) ∧
      ((∀ u ∈ db.users, ¬(u.nickname = n ∧ u.group_id = g.id)) →
        register hash db n p gname =
          (.redirectCookie ("/" ++ g.name) 303 "nickname" n,
           { db with
              users := db.users ++ [⟨db.nextUserId, n, hash p, g.id⟩]
              nextUserId := db.nextUserId + 1 }) ∧
        (hash p ≠ p →
          ∀ u ∈ (register hash db n p gname).2.users,
            u ∉ db.users → u.hashed_password ≠ p))) := by
  refine ⟨?_, ?_⟩
  · intro hnone
    exact register_no_group hash db n p gname ((findGroup_eq_none_iff db gname).2 hnone)
  · intro g hg
    constructor
    · rintro ⟨u, hu, hn, hgid⟩
      obtain ⟨u', hu'⟩ := findUserInGroup_isSome db n g.id u hu hn hgid
      exact register_conflict hash db n p gname g u' hg hu'
    · intro hnone
      have hu : findUserInGroup db n g.id = none :=
        (findUserInGroup_eq_none_iff db n g.id).2 hnone
      have hrun := register_ok hash db n p gname g hg hu
      refine ⟨hrun, ?_⟩
      intro hne u humem hunotold
      rw [hrun] at humem
      simp only [List.mem_append, List.mem_singleton] at humem
      rcases humem with hold | rfl
      · exact absurd hold hunotold
      · exact hne

/-- C7: nickname uniqueness is scoped per group — registering a nickname
in one existing group and then in a second, distinct existing group both
succeed, while re-registering it inside the first group answers Conflict
and stores nothing. -/
theorem claim_C7 (hash : String → String) (db : DB) (n p1 p2 g1name g2name : String)
    (g1 g2 : Group)
    (h1 : findGroup db g1name = some g1) (h2 : findGroup db g2name = some g2)
    (hne : g1.id ≠ g2.id)
    (hn1 : ∀ u ∈ db.users, ¬(u.nickname = n ∧ u.group_id = g1.id))
    (hn2 : ∀ u ∈ db.users, ¬(u.nickname = n ∧ u.group_id = g2.id)) :
    (register hash db n p1 g1name).1 =
        .redirectCookie ("/" ++ g1.name) 303 "nickname" n ∧
    (register hash (register hash db n p1 g1name).2 n p2 g2name).1 =
        .redirectCookie ("/" ++ g2.name) 303 "nickname" n ∧
    register hash (register hash db n p1 g1name).2 n p2 g1name =
        (.html "Nickname già registrato." 400, (register hash db n p1 g1name).2) := by
  have hu1 : findUserInGroup db n g1.id = none :=
    (findUserInGroup_eq_none_iff db n g1.id).2 hn1
  have hrun1 := register_ok hash db n p1 g1name g1 h1 hu1
  have hdb1 : (register hash db n p1 g1name).2 =
      { db with
          users := db.users ++ [⟨db.nextUserId, n, hash p1, g1.id⟩]
          nextUserId := db.nextUserId + 1 } := by rw [hrun1]
  have hg1' : findGroup (register hash db n p1 g1name).2 g1name = some g1 := by
    rw [hdb1]; exact h1
  have hg2' : findGroup (register hash db n p1 g1name).2 g2name = some g2 := by
    rw [hdb1]; exact h2
  refine ⟨by rw [hrun1], ?_, ?_⟩
  · have hu2 : findUserInGroup (register hash db n p1 g1name).2 n g2.id = none := by
      rw [hdb1]
      have hprev : findUserInGroup db n g2.id = none :=
        (findUserInGroup_eq_none_iff db n g2.id).2 hn2
      simp only [findUserInGroup] at hprev ⊢
      rw [List.find?_append, hprev]
      simp [hne]
    rw [register_ok hash _ n p2 g2name g2 hg2' hu2]
  · have hu1' : findUserInGroup (register hash db n p1 g1name).2 n g1.id =
        some ⟨db.nextUserId, n, hash p1, g1.id⟩ := by
      rw [hdb1]
      simp only [findUserInGroup] at hu1 ⊢
      rw [List.find?_append, hu1]
      simp
    exact register_conflict hash _ n p2 g1name g1 _ hg1' hu1'

/-- C8: `login` never changes the store; it answers NotFound when the
group is missing, Unauthorized — an HTML answer carrying no cookie — when
the user is missing from the group or the password fails verification, and
otherwise sets the `nickname` cookie and redirects to the group page. -/
theorem claim_C8 (verify : String → String → Bool) (db : DB) (n p gname : String) :
    ((login verify db n p gname).2 = db) ∧
    ((∀ g ∈ db.groups, g.name ≠ gname) →
      (login verify db n p gname).1 = .html "Gruppo non trovato." 404) ∧
    (∀ g, findGroup db gname = some g →
      ((∀ u ∈ db.users, ¬(u.nickname = n ∧ u.group_id = g.id)) →
        (login verify db n p gname).1 = .html "Credenziali non valide." 401) ∧
      (∀ u, findUserInGroup db n g.id = some u →
        (verify p u.hashed_password = false →
          (login verify db n p gname).1 = .html "Credenziali non valide." 401) ∧
        (verify p u.hashed_password = true →
          (login verify db n p gname).1 =
            .redirectCookie ("/" ++ g.name) 303 "nickname" n))) := by
  refine ⟨?_, ?_, ?_⟩
  · rcases hg : findGroup db gname with _ | g
    · rw [login_no_group verify db n p gname hg]
    · rcases hu : findUserInGroup db n g.id with _ | u
      · rw [login_no_user verify db n p gname g hg hu]
      · rcases hv : verify p u.hashed_password
        · rw [login_badpw verify db n p gname g u hg hu hv]
        · rw [login_ok verify db n p gname g u hg hu hv]
  · intro hnone
    rw [login_no_group verify db n p gname ((findGroup_eq_none_iff db gname).2 hnone)]
  · intro g hg
    constructor
    · intro hnone
      rw [login_no_user verify db n p gname g hg
        ((findUserInGroup_eq_none_iff db n g.id).2 hnone)]
    · intro u hu
      constructor
      · intro hv
        rw [login_badpw verify db n p gname g u hg hu hv]
      · intro hv
        rw [login_ok verify db n p gname g u hg hu hv]

/-- C9: `submit_availability` never checks the submitted venue id — for
any group, any user its cookie names inside it, and any venue id at all
(one of another group's bars, or of no bar), well-formed literals make the
submission succeed and append a row referencing that venue id. -/
theorem claim_C9 (db : DB) (gname : String) (bid : Nat) (st et ds n : String)
    (g : Group) (u : User) (t1 t2 : PTime) (d : PDate)
    (hg : findGroup db gname = some g)
    (hu : findUserInGroup db n g.id = some u)
    (hst : parseHM st = some t1) (het : parseHM et = some t2)
    (hd : parseYMD ds = some d) :
    (submit_availability db gname bid st et ds (some n)).1 =
      .redirect ("/" ++ gname) 303 ∧
    (submit_availability db gname bid st et ds (some n)).2.availabilities =
      db.availabilities ++ [⟨db.nextAvailId, u.id, bid, t1, t2, d⟩] := by
  have hrun := submit_ok db gname bid st et ds n g u t1 t2 d hg hu hst het hd
  exact ⟨by rw [hrun], by rw [hrun]⟩

/-- C10: `delete_availability` authorizes by nickname string equality
alone — whenever the cookie equals the owning user's nickname it deletes
exactly the row, for any path group name whatsoever (the group is only
spliced into the redirect URL and need not exist). -/
theorem claim_C10 (db : DB) (gname : String) (aid : Nat) (a : Availability)
    (u : User) (ha : findAvailById db aid = some a)
    (hu : findUserById db a.user_id = some u) :
    (delete_availability db gname aid (some u.nickname)).1 =
      .redirect ("/" ++ gname) 303 ∧
    ∃ l1 l2, db.availabilities = l1 ++ a :: l2 ∧ (∀ x ∈ l1, x.id ≠ aid) ∧
      (delete_availability db gname aid (some u.nickname)).2 =
        { db with availabilities := l1 ++ l2 } := by
  have hrun := delete_owner db gname aid a u ha hu
  obtain ⟨l1, l2, hdec, hne, herase⟩ :=
    eraseFirstById_decomp db.availabilities aid a (by simpa [findAvailById] using ha)
  exact ⟨by rw [hrun], l1, l2, hdec, hne, by rw [hrun, herase]⟩

/-! ### Concrete stores for the witnesses -/

/-- The store right after startup: four empty tables. -/
def dbEmpty : DB := ⟨[], [], [], [], 1, 1, 1, 1⟩

/-- A store with two groups (`alfa`, `beta`), the nickname `alice` present
in both, three bars (two of `alfa`, one of `beta`) and three availability
rows: alice-of-alfa at bar 1 on 2024-06-01, alice-of-beta at bar 3 on
2024-06-01, bob at bar 1 on 2024-06-02. -/
def dbTwo : DB :=
  ⟨[⟨1, "alfa", false⟩, ⟨2, "beta", false⟩],
   [⟨1, "alice", "H", 1⟩, ⟨2, "alice", "H", 2⟩, ⟨3, "bob", "H", 1⟩],
   [⟨1, "b1", 1⟩, ⟨2, "b2", 1⟩, ⟨3, "c1", 2⟩],
   [⟨1, 1, 1, ⟨13, 0⟩, ⟨14, 0⟩, ⟨2024, 6, 1⟩⟩,
    ⟨2, 2, 3, ⟨9, 0⟩, ⟨10, 0⟩, ⟨2024, 6, 1⟩⟩,
    ⟨3, 3, 1, ⟨9, 0⟩, ⟨10, 0⟩, ⟨2024, 6, 2⟩⟩],
   3, 4, 4, 4⟩

/-- A stand-in for the bcrypt hash of the external hashing library. -/
def hashEx : String → String := fun s => String.append "!" s

/-- A stand-in for bcrypt verification, matching `hashEx`. -/
def verifyEx : String → String → Bool := fun p h => decide (String.append "!" p = h)

/-! ### Witnesses -/

/-- C1 at a concrete store: bar ids are unique and the page for a
nonexistent group is NotFound. -/
theorem claim_C1_spot :
    (dbTwo.bars.map Bar.id).Nodup ∧
    (group_page dbTwo ⟨2024, 6, 1⟩ "nessuno" none = .notFound ↔
      ∀ g ∈ dbTwo.groups, g.name ≠ "nessuno") :=
  ⟨by decide, (claim_C1 dbTwo ⟨2024, 6, 1⟩ "nessuno" none (by decide)).1⟩

/-- C2 at the empty store: creating `alfa` succeeds and a second creation
answers Conflict, changes nothing, and leaves one group of that name. -/
theorem claim_C2_spot :
    crea_gruppo dbEmpty "alfa" "x" "y" "z" =
      (.redirect "/alfa" 303,
       ⟨[⟨1, "alfa", false⟩], [], [⟨1, "x", 1⟩, ⟨2, "y", 1⟩, ⟨3, "z", 1⟩], [], 2, 1, 4, 1⟩) ∧
    crea_gruppo (crea_gruppo dbEmpty "alfa" "x" "y" "z").2 "alfa" "x" "y" "z" =
      (.html "Questo gruppo esiste già." 400, (crea_gruppo dbEmpty "alfa" "x" "y" "z").2) ∧
    ((crea_gruppo dbEmpty "alfa" "x" "y" "z").2.groups.filter
        (fun g => decide (g.name = "alfa"))).length = 1 := by
  obtain ⟨h1, h2, h3⟩ := claim_C2.2 dbEmpty "alfa" "x" "y" "z" (by decide)
  exact ⟨h1, h2 "x" "y" "z", h3⟩

/-- C3 at a concrete store: creating `gamma` seeds exactly the three bars
`x, y, z` in order, owned by the new group. -/
theorem claim_C3_spot :
    (crea_gruppo dbTwo "gamma" "x" "y" "z").2.bars =
      dbTwo.bars ++ [⟨4, "x", 3⟩, ⟨5, "y", 3⟩, ⟨6, "z", 3⟩] :=
  (claim_C3 dbTwo "gamma" "x" "y" "z" (by decide) (by decide)).1

/-- C4 at a concrete store: the spec's literal submission
`13:00–14:00, 2024-06-01` parses and creates exactly one row with those
values for alice at bar 1. -/
theorem claim_C4_spot :
    parseHM "13:00" = some ⟨13, 0⟩ ∧ parseHM "14:00" = some ⟨14, 0⟩ ∧
    parseYMD "2024-06-01" = some ⟨2024, 6, 1⟩ ∧
    submit_availability dbTwo "alfa" 1 "13:00" "14:00" "2024-06-01" (some "alice") =
      (.redirect "/alfa" 303,
       { dbTwo with
          availabilities := dbTwo.availabilities ++
            [⟨4, 1, 1, ⟨13, 0⟩, ⟨14, 0⟩, ⟨2024, 6, 1⟩⟩]
          nextAvailId := 5 }) :=
  ⟨by decide, by decide, by decide,
   ((claim_C4 dbTwo "alfa" 1 "13:00" "14:00" "2024-06-01" (some "alice")
      ⟨13, 0⟩ ⟨14, 0⟩ ⟨2024, 6, 1⟩ (by decide) (by decide) (by decide)).2
      ⟨1, "alfa", false⟩ (by decide)).2 "alice" ⟨1, "alice", "H", 1⟩ rfl (by decide)⟩

/-- C5 at a concrete store: every row's owner resolves and the delete
answers with the redirect. -/
theorem claim_C5_spot :
    (∀ a ∈ dbTwo.availabilities, ∃ u ∈ dbTwo.users, u.id = a.user_id) ∧
    (delete_availability dbTwo "alfa" 1 (some "alice")).1 = .redirect "/alfa" 303 :=
  ⟨by decide, (claim_C5 dbTwo "alfa" 1 (some "alice") (by decide)).1⟩

/-- C6 at a concrete store: registering the fresh nickname `carol` in
`alfa` stores one user with the hashed password and sets the cookie. -/
theorem claim_C6_spot :
    register hashEx dbTwo "carol" "pw" "alfa" =
      (.redirectCookie "/alfa" 303 "nickname" "carol",
       { dbTwo with
          users := dbTwo.users ++ [⟨4, "carol", "!pw", 1⟩]
          nextUserId := 5 }) :=
  (((claim_C6 hashEx dbTwo "carol" "pw" "alfa").2 ⟨1, "alfa", false⟩ (by decide)).2
    (by decide)).1

/-- C7 at a concrete store: `carol` registers in `alfa`, then in `beta`,
both succeeding; a second registration in `alfa` answers Conflict. -/
theorem claim_C7_spot :
    (register hashEx dbTwo "carol" "p1" "alfa").1 =
        .redirectCookie "/alfa" 303 "nickname" "carol" ∧
    (register hashEx (register hashEx dbTwo "carol" "p1" "alfa").2 "carol" "p2" "beta").1 =
        .redirectCookie "/beta" 303 "nickname" "carol" ∧
    register hashEx (register hashEx dbTwo "carol" "p1" "alfa").2 "carol" "p2" "alfa" =
        (.html "Nickname già registrato." 400,
         (register hashEx dbTwo "carol" "p1" "alfa").2) :=
  claim_C7 hashEx dbTwo "carol" "p1" "p2" "alfa" "beta"
    ⟨1, "alfa", false⟩ ⟨2, "beta", false⟩ (by decide) (by decide) (by decide)
    (by decide) (by decide)

/-- C8 at a concrete store: a wrong password answers Unauthorized, an HTML
answer that sets no cookie. -/
theorem claim_C8_spot :
    (login verifyEx dbTwo "alice" "wrong" "alfa").1 = .html "Credenziali non valide." 401 :=
  ((((claim_C8 verifyEx dbTwo "alice" "wrong" "alfa").2.2 ⟨1, "alfa", false⟩
    (by decide)).2 ⟨1, "alice", "H", 1⟩ (by decide)).1 (by decide))

/-- C9 at a concrete store: alice of `alfa` submits venue id 3, a bar of
the other group `beta`, and the row is created referencing it. -/
theorem claim_C9_spot :
    (∃ b ∈ dbTwo.bars, b.id = 3 ∧ b.group_id ≠ 1) ∧
    (submit_availability dbTwo "alfa" 3 "13:00" "14:00" "2024-06-01" (some "alice")).2.availabilities =
      dbTwo.availabilities ++ [⟨4, 1, 3, ⟨13, 0⟩, ⟨14, 0⟩, ⟨2024, 6, 1⟩⟩] :=
  ⟨by decide,
   (claim_C9 dbTwo "alfa" 3 "13:00" "14:00" "2024-06-01" "alice"
      ⟨1, "alfa", false⟩ ⟨1, "alice", "H", 1⟩ ⟨13, 0⟩ ⟨14, 0⟩ ⟨2024, 6, 1⟩
      (by decide) (by decide) (by decide) (by decide) (by decide)).2⟩

/-- C10 at a concrete store: no group is named `nessuno`, yet the caller
whose cookie reads `alice` deletes the row owned by alice-of-beta and is
redirected to `/nessuno`. -/
theorem claim_C10_spot :
    (∀ g ∈ dbTwo.groups, g.name ≠ "nessuno") ∧
    (delete_availability dbTwo "nessuno" 2 (some "alice")).1 = .redirect "/nessuno" 303 :=
  ⟨by decide,
   (claim_C10 dbTwo "nessuno" 2 ⟨2, 2, 3, ⟨9, 0⟩, ⟨10, 0⟩, ⟨2024, 6, 1⟩⟩
      ⟨2, "alice", "H", 2⟩ (by decide) (by decide)).1⟩

end Caffe
